import Mathlib

/-!
Verification of the verilator regression-test orchestration layer
(test-case execution and verification engine) against its specification.

The repository artifacts are two test scripts,
`test_regress/t/t_dfg_true_cycle_bad.py` and
`test_regress/t/t_interface_ref_trace_saif.py`, which exercise the engine
(scenario declaration, lint/compile/execute invocations, `file_grep` fact
extraction over statistics artifacts, `saif_identical` trace comparison,
and the explicit `passes` terminal declaration).  The engine itself
(the `vltest_bootstrap` driver) is not among the artifacts, so its
components are modelled from the specification; the concrete test scripts
are embedded from the source files.
-/

namespace VlTest

/-- Modelled from the spec: outcome of one assertion or runner check.
The spec classifies failures as FAIL (assertion mismatch) versus ERROR
(invocation could not run, golden file missing, broken toolchain). -/
inductive Outcome where
  | ok : Outcome
  | fail : String → Outcome
  | error : String → Outcome
deriving DecidableEq, Repr

/-- Modelled from the spec: terminal state of a TestCase, plus the
non-terminal states of the verdict state machine
PENDING -> (RUNNING) -> one of PASS, FAIL, ERROR. -/
inductive Verdict where
  | pending : Verdict
  | running : Verdict
  | pass : Verdict
  | fail : Verdict
  | error : Verdict
deriving DecidableEq, Repr

/-- Modelled from the spec: a verdict is terminal when it is PASS, FAIL
or ERROR; once reached it never changes. -/
def Verdict.terminal : Verdict → Bool
  | .pass => true
  | .fail => true
  | .error => true
  | _ => false

/-- Modelled from the spec: the error taxonomy of section 7. -/
inductive HarnessFailure where
  | configurationError : String → HarnessFailure
  | executionError : String → HarnessFailure
  | patternNotFoundError : String → HarnessFailure
  | valueMismatch : String → HarnessFailure
  | artifactMismatch : String → HarnessFailure
deriving DecidableEq, Repr

/-- Modelled from the spec: ConfigurationError and ExecutionError are
always ERROR; PatternNotFoundError, ValueMismatch and ArtifactMismatch
are FAIL. -/
def classify : HarnessFailure → Verdict
  | .configurationError _ => .error
  | .executionError _ => .error
  | .patternNotFoundError _ => .fail
  | .valueMismatch _ => .fail
  | .artifactMismatch _ => .fail

/-! ### Fact Extractor

Modelled from the spec, section 4.3: a text artifact is a list of lines;
a single-line pattern with one capturing group is a function from a line
to an optional capture.  Extraction scans the artifact line by line and
returns the capture from the first matching line. -/

/-- Modelled from the spec: `extract(textArtifact, pattern)` scans the
artifact line by line, first match wins. -/
def extract : List String → (String → Option String) → Option String
  | [], _ => none
  | l :: ls, pat =>
    match pat l with
    | some c => some c
    | none => extract ls pat

/-- Numeric parsing of a captured substring: a nonempty all-digit string
read as a decimal numeral (leading zeros permitted). -/
def parseVal (s : String) : Option Nat :=
  let cs := s.toList
  if cs ≠ [] ∧ cs.all Char.isDigit then
    some (cs.foldl (fun a c => a * 10 + (c.toNat - ('0').toNat)) 0)
  else none

/-- Drop an expected leading sequence of characters, or fail. -/
def dropLabel : List Char → List Char → Option (List Char)
  | [], cs => some cs
  | _ :: _, [] => none
  | p :: ps, c :: cs => if c = p then dropLabel ps cs else none

/-- Match the regular expression `label\s+(\d+)` anchored at the start of
the given character list, returning the digits captured by the group. -/
def matchLabelNum (label : List Char) (cs : List Char) : Option (List Char) :=
  match dropLabel label cs with
  | none => none
  | some r =>
    let ws := r.takeWhile Char.isWhitespace
    if ws.isEmpty then none
    else
      let ds := (r.drop ws.length).takeWhile Char.isDigit
      if ds.isEmpty then none else some ds

/-- Try a matcher at every start position, leftmost first (the semantics
of an unanchored regular-expression search within one line). -/
def scanMatch (m : List Char → Option (List Char)) : List Char → Option (List Char)
  | [] => m []
  | c :: cs =>
    match m (c :: cs) with
    | some r => some r
    | none => scanMatch m cs

/-- The single-line pattern `label\s+(\d+)` searched anywhere in a line,
as used by the statistics assertions of the embedded test script. -/
def searchCapture (label : String) (line : String) : Option String :=
  (scanMatch (matchLabelNum label.toList) line.toList).map (fun ds => String.mk ds)

/-- Modelled from the spec: extraction fails with PatternNotFoundError
if no line matches; the error carries a human-readable diagnostic naming
the pattern. -/
def extractE (a : List String) (pat : String → Option String) (patDesc : String) :
    Except HarnessFailure String :=
  match extract a pat with
  | some c => .ok c
  | none => .error (.patternNotFoundError ("pattern not found: " ++ patDesc))

/-- Modelled from the spec: `assertCapture` with a numeric expected
value (the `file_grep(artifact, pattern, expected)` call of the test
scripts).  The captured substring is compared by numeric equality after
parsing; parse failure is ERROR, value mismatch is FAIL with a
diagnostic naming the failing pattern. -/
def file_grep (a : List String) (pat : String → Option String) (patDesc : String)
    (expected : Nat) : Outcome :=
  match extract a pat with
  | none => .fail ("PatternNotFoundError: pattern not found: " ++ patDesc)
  | some cap =>
    match parseVal cap with
    | none => .error ("capture does not parse as a number: " ++ cap)
    | some v =>
      if v = expected then .ok
      else .fail ("ValueMismatch in pattern " ++ patDesc ++ ": expected " ++
        toString expected ++ " got " ++ toString v)

/-! ### Artifact Comparator

Modelled from the spec, section 4.4: text comparison is byte-for-byte
after trailing-whitespace and line-ending normalization; trace
comparison decodes both files into an ordered sequence of
(signal, bucket, activity) records and requires exact equality of the
decoded sequences, independent of incidental formatting. -/

/-- Index of the first position at which two lists differ. -/
def firstDiff {α : Type} [DecidableEq α] : List α → List α → Nat
  | a :: as, b :: bs => if a = b then firstDiff as bs + 1 else 0
  | _, _ => 0

/-- Trailing-whitespace (and carriage-return) normalization of one line. -/
def normLine (s : String) : String :=
  String.mk ((s.toList.reverse.dropWhile Char.isWhitespace).reverse)

/-- Modelled from the spec: `compareText(produced, golden)`; a missing
golden file is ERROR, a content mismatch is FAIL with a diff limited to
the first divergence. -/
def compareText (produced : List String) (golden : Option (List String)) : Outcome :=
  match golden with
  | none => .error "missing golden file"
  | some g =>
    let np := produced.map normLine
    let ng := g.map normLine
    if np = ng then .ok
    else .fail ("golden mismatch at line " ++ toString (firstDiff np ng))

/-- A decoded trace record: signal name, time bucket, activity count. -/
structure TraceRecord where
  signal : String
  bucket : Nat
  activity : Nat
deriving DecidableEq, Repr

/-- A raw trace record as written in the file: named fields in file
order, values as (possibly padded) numeral strings. -/
def RawRecord : Type := List (String × String)

/-- A raw trace file: a header table mapping internal numeric IDs to
signal names, and the record lines. -/
structure RawTrace where
  idTable : List (Nat × String)
  records : List RawRecord

/-- Decode one named numeric field of a raw record. -/
def decodeField (k : String) (r : RawRecord) : Option Nat :=
  (List.lookup k r).bind parseVal

/-- Decode the signal name of a raw record: the `signal` field holds an
internal numeric ID resolved through the header table. -/
def decodeSignal (table : List (Nat × String)) (r : RawRecord) : Option String :=
  (List.lookup "signal" r).bind fun v =>
    (parseVal v).bind fun i => List.lookup i table

/-- Decode one raw record into a (signal, bucket, activity) record. -/
def decodeRecord (table : List (Nat × String)) (r : RawRecord) : Option TraceRecord :=
  (decodeSignal table r).bind fun name =>
    (decodeField "bucket" r).bind fun b =>
      (decodeField "activity" r).map fun a => ⟨name, b, a⟩

/-- Decode a list of raw records in order, failing if any fails. -/
def decodeList (table : List (Nat × String)) : List RawRecord → Option (List TraceRecord)
  | [] => some []
  | r :: rs =>
    (decodeRecord table r).bind fun x =>
      (decodeList table rs).map fun xs => x :: xs

/-- Modelled from the spec: decode a trace file into its ordered
sequence of (signal, bucket, activity) records. -/
def decode (t : RawTrace) : Option (List TraceRecord) :=
  decodeList t.idTable t.records

/-- Render one decoded record for a diagnostic. -/
def describeRec : Option TraceRecord → String
  | none => "end of trace"
  | some r => r.signal ++ " bucket " ++ toString r.bucket ++ " activity " ++ toString r.activity

/-- Diagnostic reporting the first divergent record of two decoded
sequences. -/
def divergeDiag (rp rg : List TraceRecord) : String :=
  let n := firstDiff rp rg
  "first divergent record at index " ++ toString n ++ ": " ++
    describeRec (rp.get? n) ++ " vs " ++ describeRec (rg.get? n)

/-- Modelled from the spec: `compareTrace(produced, golden)`
(the `saif_identical` assertion): decode both files and require exact
equality of the decoded sequences; missing golden file is ERROR; an
undecodable file is a toolchain-integration ERROR; a differing decoded
sequence is FAIL reporting the first divergent record. -/
def compareTrace (produced : RawTrace) (golden : Option RawTrace) : Outcome :=
  match golden with
  | none => .error "missing golden trace file"
  | some g =>
    match decode produced, decode g with
    | some rp, some rg =>
      if rp = rg then .ok else .fail (divergeDiag rp rg)
    | _, _ => .error "undecodable trace file"

/-! Cosmetic reformatting of a raw trace: permuting the fields within a
record line, re-padding numeral values, and renumbering the internal
IDs, all of which leave the decoded sequence unchanged. -/

/-- Normalization of one raw field under an ID renumbering: the value is
read as a number, and the `signal` field value additionally has the
renumbering applied. -/
def sigNorm (f : Nat → Nat) (e : String × String) : String × Option Nat :=
  (e.1, if e.1 = "signal" then (parseVal e.2).map f else parseVal e.2)

/-- Normalization of one raw field with no renumbering. -/
def baseNorm (e : String × String) : String × Option Nat :=
  (e.1, parseVal e.2)

/-- Record r2 is a cosmetic reformatting of record r1 under ID
renumbering f: both have well-formed (duplicate-free) field names, and
up to field reordering, numeric re-padding and the renumbering of the
signal ID they carry the same data. -/
def RecEquiv (f : Nat → Nat) (r1 r2 : RawRecord) : Prop :=
  (r1.map Prod.fst).Nodup ∧ (r2.map Prod.fst).Nodup ∧
    (r1.map (sigNorm f)).Perm (r2.map baseNorm)

/-- Trace q is a cosmetic reformatting of trace p under ID renumbering
f: the header table is renumbered by f and each record line is a
cosmetic reformatting of the corresponding line. -/
def CosmeticRel (f : Nat → Nat) (p q : RawTrace) : Prop :=
  q.idTable = p.idTable.map (fun e => (f e.1, e.2)) ∧
    List.Forall₂ (RecEquiv f) p.records q.records

/-! ### Invocation Composer

Modelled from the spec, section 4.1. -/

/-- Modelled from the spec: a TestCase as declared by a test script. -/
structure TestCase where
  name : String
  scenarios : List String
  flags : List String
  top_filename : String
  golden_filename : String
deriving DecidableEq, Repr

/-- Modelled from the spec: a resolved, scenario-specific command. -/
structure Invocation where
  args : List String
deriving DecidableEq, Repr

/-- Modelled from the spec: `compose(testCase, scenario, extraFlags)`
merges TestCase.flags with extraFlags (extraFlags appended after) and
fails with ConfigurationError if the scenario is not declared.  A pure
function: no side effects. -/
def compose (tc : TestCase) (scenario : String) (extraFlags : List String) :
    Except HarnessFailure Invocation :=
  if scenario ∈ tc.scenarios then .ok ⟨tc.flags ++ extraFlags⟩
  else .error (.configurationError ("scenario not declared: " ++ scenario))

/-! ### Process Runner

Modelled from the spec, section 4.2. -/

/-- What the external toolchain produced: exit code, captured output,
and the statistics artifact if one was written. -/
structure RunResult where
  exitCode : Nat
  stdoutLines : List String
  statsFile : Option (List String)
deriving DecidableEq, Repr

/-- An invocation requests a statistics artifact when its flags contain
the emit-stats flag fragment. -/
def requestsStats (inv : Invocation) : Bool :=
  inv.args.contains "--stats"

/-- Modelled from the spec: the post-exit check of the Process Runner:
non-zero exit is ERROR, and when a statistics file was requested and
does not exist after exit, the result is ERROR (not FAIL). -/
def runnerCheck (inv : Invocation) (res : RunResult) : Outcome :=
  if res.exitCode ≠ 0 then
    .error ("toolchain exited with code " ++ toString res.exitCode)
  else if requestsStats inv ∧ res.statsFile = none then
    .error "expected statistics file missing after exit"
  else .ok

/-- Modelled from the spec: `run(invocation)` against an opaque external
toolchain behavior. -/
def run (world : Invocation → RunResult) (inv : Invocation) : Outcome :=
  runnerCheck inv (world inv)

/-! ### Verdict Aggregator and test-script steps

Modelled from the spec, section 4.5: assertions accumulate in
declaration order; the verdict state machine is
PENDING -> (RUNNING) -> one of PASS, FAIL, ERROR, terminal once
reached; an explicit terminal pass declaration is required for PASS. -/

/-- One step of a test script: a toolchain invocation (with its exit
code and whether failure was declared as expected), a lint invocation
that also carries the golden text comparison performed as part of the
invocation itself, a declared assertion, or the explicit terminal pass
declaration. -/
inductive Step where
  | invoke : Nat → Bool → Step
  | lint : Nat → Bool → List String → Option (List String) → Step
  | assertion : Outcome → Step
  | passes : Step
deriving DecidableEq, Repr

/-- Modelled from the spec: one transition of the verdict state
machine; a terminal verdict never changes. -/
def runStep (v : Verdict) (st : Step) : Verdict :=
  if v.terminal then v
  else
    match st with
    | .invoke ec ef => if ec ≠ 0 ∧ ef = false then .error else .running
    | .lint ec ef out golden =>
      if ec ≠ 0 ∧ ef = false then .error
      else
        match compareText out golden with
        | .ok => .running
        | .fail _ => .fail
        | .error _ => .error
    | .assertion o =>
      match o with
      | .ok => v
      | .fail _ => .fail
      | .error _ => .error
    | .passes => .pass

/-- Run a test script from a given verdict state. -/
def runSteps (v : Verdict) (steps : List Step) : Verdict :=
  steps.foldl runStep v

/-- Modelled from the spec: the verdict the suite runner reports for a
TestCase: its terminal verdict, or ERROR when the script finished in a
non-terminal state (guarding against silently-truncated test scripts). -/
def suiteVerdict (v : Verdict) : Verdict :=
  if v.terminal then v else .error

/-- The verdict of one whole test script, started from PENDING. -/
def runTC (steps : List Step) : Verdict :=
  suiteVerdict (runSteps .pending steps)

/-- Modelled from the spec: the suite runner evaluates every test case
independently, one verdict per scheduling slot. -/
def runSuite (scripts : List (List Step)) : List Verdict :=
  scripts.map runTC

/-! ### The two test scripts embedded from the source files. -/

/-- The TestCase declared by `t/t_dfg_true_cycle_bad.py`. -/
def dfgTestCase : TestCase :=
  ⟨"t_dfg_true_cycle_bad", ["vlt"], [], "t/t_dfg_true_cycle_bad.v", "t/t_dfg_true_cycle_bad.out"⟩

/-- The three statistics labels asserted by `t/t_dfg_true_cycle_bad.py`,
each used in the pattern `label\s+(\d+)` with expected value 1. -/
def dfgLabels : List String :=
  ["DFG pre inline BreakCycles, true cycle",
   "DFG post inline BreakCycles, true cycle",
   "DFG scoped BreakCycles, true cycle"]

/-- The script of `t/t_dfg_true_cycle_bad.py`: a lint invocation whose
`expect_filename` argument carries the golden file into the invocation
step itself, three `file_grep` statistics assertions, then the explicit
pass declaration. -/
def dfgScript (ec : Nat) (out : List String) (golden : Option (List String))
    (stats : List String) : List Step :=
  Step.lint ec false out golden ::
    (dfgLabels.map (fun lb => Step.assertion (file_grep stats (searchCapture lb) lb 1)) ++
      [Step.passes])

/-- The TestCase declared by `t/t_interface_ref_trace_saif.py`. -/
def saifTestCase : TestCase :=
  ⟨"t_interface_ref_trace_saif", ["simulator"], [],
    "t/t_interface_ref_trace.v", "t/t_interface_ref_trace_saif.out"⟩

/-- The script of `t/t_interface_ref_trace_saif.py`: compile, execute,
the `saif_identical` trace comparison, then the explicit pass
declaration. -/
def saifScript (compileEc execEc : Nat) (trace : RawTrace) (golden : Option RawTrace) :
    List Step :=
  [Step.invoke compileEc false, Step.invoke execEc false,
   Step.assertion (compareTrace trace golden), Step.passes]

/-- A concrete statistics artifact of the shape the embedded test
script asserts against, used to instantiate the theorems. -/
def sampleStats : List String :=
  ["Verilator statistics report",
   "DFG pre inline BreakCycles, true cycle       1",
   "DFG post inline BreakCycles, true cycle      1",
   "DFG scoped BreakCycles, true cycle           1"]

/-- A concrete raw trace file used to instantiate the theorems. -/
def sampleTraceP : RawTrace :=
  ⟨[(1, "top.clk"), (2, "top.data")],
   [[("signal", "1"), ("bucket", "0"), ("activity", "3")],
    [("signal", "2"), ("bucket", "0"), ("activity", "5")]]⟩

/-- A cosmetic reformatting of `sampleTraceP`: internal IDs renumbered
by adding 5, fields reordered within each record line, and numerals
padded with leading zeros. -/
def sampleTraceQ : RawTrace :=
  ⟨[(6, "top.clk"), (7, "top.data")],
   [[("bucket", "00"), ("signal", "6"), ("activity", "003")],
    [("activity", "5"), ("signal", "07"), ("bucket", "0")]]⟩

/-- A trace that structurally differs from `sampleTraceP` in its second
record. -/
def sampleTraceG : RawTrace :=
  ⟨[(1, "top.clk"), (2, "top.data")],
   [[("signal", "1"), ("bucket", "0"), ("activity", "3")],
    [("signal", "2"), ("bucket", "0"), ("activity", "9")]]⟩

/-! ## Theorems -/

/-- C1: for every text artifact and single-line pattern with a capturing
group, if at least one line matches, extract returns the capture from
the first matching line in top-to-bottom order, and repeated extraction
on the same artifact returns the same value. -/
theorem extract_first_match_deterministic (a : List String)
    (pat : String → Option String) (h : ∃ l ∈ a, (pat l).isSome) :
    (∃ i l, a.get? i = some l ∧ (∀ m ∈ a.take i, pat m = none) ∧
      (pat l).isSome ∧ extract a pat = pat l) ∧
    extract a pat = extract a pat := by
  refine ⟨?_, rfl⟩
  induction a with
  | nil => simp at h
  | cons x xs ih =>
    cases hx : pat x with
    | some c =>
      exact ⟨0, x, rfl, by simp, by simp [hx], by simp [extract, hx]⟩
    | none =>
      obtain ⟨l, hl, hs⟩ := h
      rcases List.mem_cons.mp hl with hlx | hlxs
      · rw [hlx] at hs
        rw [hx] at hs
        simp at hs
      · obtain ⟨i, l', hg, htake, hsome, hext⟩ := ih ⟨l, hlxs, hs⟩
        refine ⟨i + 1, l', by simpa using hg, ?_, hsome, ?_⟩
        · intro m hm
          rcases List.mem_cons.mp (by simpa using hm) with hmx | hmxs
          · rw [hmx]; exact hx
          · exact htake m hmxs
        · simpa [extract, hx] using hext

/-- C1 witness: the first matching line of a concrete statistics
artifact wins. -/
theorem extract_first_match_deterministic_witness :
    (∃ l ∈ sampleStats,
      ((searchCapture "DFG pre inline BreakCycles, true cycle") l).isSome) ∧
    ((∃ i l, sampleStats.get? i = some l ∧
      (∀ m ∈ sampleStats.take i,
        searchCapture "DFG pre inline BreakCycles, true cycle" m = none) ∧
      ((searchCapture "DFG pre inline BreakCycles, true cycle") l).isSome ∧
      extract sampleStats (searchCapture "DFG pre inline BreakCycles, true cycle") =
        searchCapture "DFG pre inline BreakCycles, true cycle" l) ∧
    extract sampleStats (searchCapture "DFG pre inline BreakCycles, true cycle") =
      extract sampleStats (searchCapture "DFG pre inline BreakCycles, true cycle")) :=
  ⟨by decide, extract_first_match_deterministic sampleStats _ (by decide)⟩

/-! Helper lemmas. -/

/-- Extraction returns nothing exactly when no line matches. -/
theorem extract_eq_none (a : List String) (pat : String → Option String) :
    extract a pat = none ↔ ∀ l ∈ a, pat l = none := by
  induction a with
  | nil => simp [extract]
  | cons x xs ih =>
    cases hx : pat x with
    | some c => simp [extract, hx]
    | none => simpa [extract, hx] using ih

/-- Unfolding one step of a script run. -/
theorem runSteps_cons (v : Verdict) (s : Step) (l : List Step) :
    runSteps v (s :: l) = runSteps (runStep v s) l := rfl

/-- A terminal verdict is a fixed point of every script. -/
theorem runSteps_terminal_fixed (l : List Step) :
    ∀ v : Verdict, v.terminal = true → runSteps v l = v := by
  induction l with
  | nil => intro v _; rfl
  | cons s t ih =>
    intro v hv
    rw [runSteps_cons]
    have hs : runStep v s = v := by simp [runStep, hv]
    rw [hs]
    exact ih v hv

/-- No step other than the explicit pass declaration can produce the
PASS verdict. -/
theorem runStep_ne_pass (v : Verdict) (s : Step) (hv : v ≠ .pass) (hs : s ≠ .passes) :
    runStep v s ≠ .pass := by
  by_cases ht : v.terminal = true
  · simpa [runStep, ht] using hv
  · cases s with
    | invoke ec ef =>
      simp only [runStep, ht, Bool.false_eq_true, if_false]
      split <;> simp
    | lint ec ef out golden =>
      simp only [runStep, ht, Bool.false_eq_true, if_false]
      split
      · simp
      · split <;> simp
    | assertion o =>
      simp only [runStep, ht, Bool.false_eq_true, if_false]
      cases o <;> simp [hv]
    | passes => exact absurd rfl hs

/-- A script without the explicit pass declaration never reaches PASS. -/
theorem runSteps_no_passes_ne_pass (l : List Step) :
    ∀ v : Verdict, v ≠ .pass → Step.passes ∉ l → runSteps v l ≠ .pass := by
  induction l with
  | nil => intro v hv _; exact hv
  | cons s t ih =>
    intro v hv hnp
    rw [runSteps_cons]
    exact ih _ (runStep_ne_pass v s hv (fun h => hnp (h ▸ List.mem_cons_self s t)))
      (fun h => hnp (List.mem_cons_of_mem s h))

/-- Successful assertions leave the verdict state unchanged. -/
theorem runSteps_ok_assertions (outs : List Outcome) (houts : ∀ o ∈ outs, o = Outcome.ok) :
    ∀ v : Verdict, v.terminal = false → runSteps v (outs.map Step.assertion) = v := by
  induction outs with
  | nil => intro v _; rfl
  | cons o t ih =>
    intro v hv
    rw [List.map_cons, runSteps_cons]
    have ho : o = Outcome.ok := houts o (List.mem_cons_self o t)
    have hs : runStep v (Step.assertion o) = v := by
      simp [runStep, hv, ho]
    rw [hs]
    exact ih (fun o ho => houts o (List.mem_cons_of_mem _ ho)) v hv

/-- C3: PASS is reached only after the explicit terminal pass
declaration: a TestCase with zero assertions and an explicit pass signal
resolves to PASS; a TestCase whose assertions all succeed but that never
signals completion remains PENDING, which the suite runner reports as
ERROR; a terminal verdict never changes. -/
theorem verdict_requires_explicit_pass (outs : List Outcome)
    (houts : ∀ o ∈ outs, o = Outcome.ok) (v : Verdict) (hv : v.terminal = true)
    (steps steps2 : List Step) (hnp : Step.passes ∉ steps2) :
    runSteps .pending [Step.passes] = .pass ∧
    runSteps .pending (outs.map Step.assertion) = .pending ∧
    suiteVerdict (runSteps .pending (outs.map Step.assertion)) = .error ∧
    runSteps v steps = v ∧
    runSteps .pending steps2 ≠ .pass := by
  have hpend : runSteps .pending (outs.map Step.assertion) = .pending :=
    runSteps_ok_assertions outs houts .pending rfl
  refine ⟨rfl, hpend, ?_, runSteps_terminal_fixed steps v hv, ?_⟩
  · rw [hpend]; rfl
  · exact runSteps_no_passes_ne_pass steps2 .pending (by simp) hnp

/-- C3 witness: a concrete script of one successful assertion and no
pass declaration stays PENDING and is reported as ERROR, while the
explicit pass declaration alone yields PASS. -/
theorem verdict_requires_explicit_pass_witness :
    (∀ o ∈ [Outcome.ok], o = Outcome.ok) ∧ Verdict.fail.terminal = true ∧
    Step.passes ∉ [Step.assertion Outcome.ok] ∧
    (runSteps .pending [Step.passes] = .pass ∧
      runSteps .pending ([Outcome.ok].map Step.assertion) = .pending ∧
      suiteVerdict (runSteps .pending ([Outcome.ok].map Step.assertion)) = .error ∧
      runSteps .fail [Step.passes, Step.assertion (Outcome.fail "late")] = .fail ∧
      runSteps .pending [Step.assertion Outcome.ok] ≠ .pass) :=
  ⟨by decide, by decide, by decide,
    verdict_requires_explicit_pass [Outcome.ok] (by decide) .fail (by decide)
      [Step.passes, Step.assertion (Outcome.fail "late")]
      [Step.assertion Outcome.ok] (by decide)⟩

/-- C4: an Invocation that exits non-zero without an expect-failure
declaration resolves the TestCase to ERROR, never FAIL and never PASS,
regardless of any assertions declared after it. -/
theorem invoke_nonzero_resolves_error (v : Verdict) (hv : v.terminal = false)
    (ec : Nat) (hec : ec ≠ 0) (rest : List Step) :
    runSteps v (Step.invoke ec false :: rest) = .error ∧
    runSteps v (Step.invoke ec false :: rest) ≠ .fail ∧
    runSteps v (Step.invoke ec false :: rest) ≠ .pass := by
  have h1 : runStep v (Step.invoke ec false) = .error := by
    simp [runStep, hv, hec]
  rw [runSteps_cons, h1]
  rw [runSteps_terminal_fixed rest .error rfl]
  exact ⟨rfl, by simp, by simp⟩

/-- C4 witness: a non-zero exit followed by assertions still resolves
to ERROR. -/
theorem invoke_nonzero_resolves_error_witness :
    Verdict.pending.terminal = false ∧ (1 : Nat) ≠ 0 ∧
    (runSteps .pending
        [Step.invoke 1 false, Step.assertion (Outcome.fail "x"), Step.passes] = .error ∧
      runSteps .pending
        [Step.invoke 1 false, Step.assertion (Outcome.fail "x"), Step.passes] ≠ .fail ∧
      runSteps .pending
        [Step.invoke 1 false, Step.assertion (Outcome.fail "x"), Step.passes] ≠ .pass) :=
  ⟨by decide, by decide,
    invoke_nonzero_resolves_error .pending (by decide) 1 (by decide)
      [Step.assertion (Outcome.fail "x"), Step.passes]⟩

/-- C5: extraction reports PatternNotFoundError exactly when no line of
the artifact matches; that failure is classified as FAIL (never ERROR);
and the suite runner evaluates every test case independently, so one
failing case does not abort the rest of the suite. -/
theorem pattern_not_found_is_fail (a : List String) (pat : String → Option String)
    (d : String) (u w : List (List Step)) :
    (extractE a pat d = .error (.patternNotFoundError ("pattern not found: " ++ d)) ↔
      ∀ l ∈ a, pat l = none) ∧
    (∀ m, classify (.patternNotFoundError m) = Verdict.fail ∧
      classify (.patternNotFoundError m) ≠ Verdict.error) ∧
    runSuite (u ++ w) = runSuite u ++ runSuite w := by
  refine ⟨?_, fun m => ⟨rfl, by simp [classify]⟩, by simp [runSuite]⟩
  constructor
  · intro h
    rw [← extract_eq_none]
    cases hx : extract a pat with
    | none => rfl
    | some c => rw [extractE, hx] at h; simp at h
  · intro h
    rw [extractE, (extract_eq_none a pat).mpr h]

/-- C6: the captured substring is compared by numeric equality after
parsing, not by string equality; a capture that fails to parse is
ERROR; a parsed capture differing in value is FAIL with a diagnostic
naming the failing pattern. -/
theorem file_grep_numeric_compare (a : List String) (pat : String → Option String)
    (d : String) (e : Nat) (cap : String) (hext : extract a pat = some cap) :
    (file_grep a pat d e = .ok ↔ parseVal cap = some e) ∧
    (parseVal cap = none →
      file_grep a pat d e = .error ("capture does not parse as a number: " ++ cap)) ∧
    (∀ v, parseVal cap = some v → v ≠ e →
      file_grep a pat d e = .fail ("ValueMismatch in pattern " ++ d ++ ": expected " ++
        toString e ++ " got " ++ toString v)) := by
  cases hp : parseVal cap with
  | none =>
    have hfg : file_grep a pat d e =
        Outcome.error ("capture does not parse as a number: " ++ cap) := by
      simp only [file_grep, hext, hp]
    refine ⟨⟨fun h => ?_, fun h => Option.noConfusion h⟩, fun _ => hfg,
      fun v hv => fun _ => Option.noConfusion hv⟩
    rw [hfg] at h
    exact Outcome.noConfusion h
  | some v =>
    have hfg : file_grep a pat d e =
        if v = e then Outcome.ok
        else Outcome.fail ("ValueMismatch in pattern " ++ d ++ ": expected " ++
          toString e ++ " got " ++ toString v) := by
      simp only [file_grep, hext, hp]
    by_cases hve : v = e
    · subst hve
      rw [if_pos rfl] at hfg
      refine ⟨⟨fun _ => rfl, fun _ => hfg⟩, fun h => Option.noConfusion h,
        fun v2 h2 hne => absurd (Option.some.inj h2).symm hne⟩
    · rw [if_neg hve] at hfg
      refine ⟨⟨fun h => ?_, fun h => absurd (Option.some.inj h) hve⟩,
        fun h => Option.noConfusion h, fun v2 h2 hne => ?_⟩
      · rw [hfg] at h; exact Outcome.noConfusion h
      · have hv2 : v = v2 := Option.some.inj h2
        subst hv2
        exact hfg

/-- C6 witness: the padded capture 007 numerically equals the expected
value 7 although the strings differ. -/
theorem file_grep_numeric_compare_witness :
    extract ["true cycle count   007"] (searchCapture "true cycle count") = some "007" ∧
    parseVal "007" = some 7 ∧
    file_grep ["true cycle count   007"] (searchCapture "true cycle count")
      "true cycle count" 7 = .ok :=
  ⟨by decide, by decide,
    (file_grep_numeric_compare ["true cycle count   007"] (searchCapture "true cycle count")
      "true cycle count" 7 "007" (by decide)).1.mpr (by decide)⟩

/-- C7: compose fails with ConfigurationError exactly when the scenario
is not declared, is a pure function (no side effects: equal inputs give
equal results), and on success yields the base flags followed by the
extra flags in declaration order. -/
theorem compose_scenario_gate (tc : TestCase) (sc : String) (ex : List String) :
    ((∃ d, compose tc sc ex = .error (.configurationError d)) ↔ sc ∉ tc.scenarios) ∧
    (sc ∈ tc.scenarios → compose tc sc ex = .ok ⟨tc.flags ++ ex⟩) ∧
    compose tc sc ex = compose tc sc ex := by
  refine ⟨?_, fun h => by simp [compose, h], rfl⟩
  constructor
  · intro ⟨d, hd⟩ hmem
    rw [compose, if_pos hmem] at hd
    simp at hd
  · intro h
    exact ⟨"scenario not declared: " ++ sc, by rw [compose, if_neg h]⟩

/-- C7 witness: the scenario and flags of the embedded lint test case
compose into the invocation with extra flags appended after base
flags, and an undeclared scenario is a ConfigurationError. -/
theorem compose_scenario_gate_witness :
    "vlt" ∈ dfgTestCase.scenarios ∧
    compose dfgTestCase "vlt" ["--stats", "-Wno-fatal", "--no-skip-identical"] =
      .ok ⟨dfgTestCase.flags ++ ["--stats", "-Wno-fatal", "--no-skip-identical"]⟩ :=
  ⟨by decide,
    (compose_scenario_gate dfgTestCase "vlt"
      ["--stats", "-Wno-fatal", "--no-skip-identical"]).2.1 (by decide)⟩

/-- C8: when an invocation requests a statistics artifact and the file
does not exist after the process exits, the Process Runner resolves to
ERROR, never FAIL and never success. -/
theorem runner_missing_stats_is_error (world : Invocation → RunResult) (inv : Invocation)
    (hreq : requestsStats inv = true) (hmiss : (world inv).statsFile = none) :
    (∃ d, run world inv = .error d) ∧
    (∀ m, run world inv ≠ .fail m) ∧ run world inv ≠ .ok := by
  by_cases hec : (world inv).exitCode ≠ 0
  · refine ⟨⟨"toolchain exited with code " ++ toString (world inv).exitCode, ?_⟩, ?_, ?_⟩ <;>
      simp [run, runnerCheck, hec]
  · refine ⟨⟨"expected statistics file missing after exit", ?_⟩, ?_, ?_⟩ <;>
      simp [run, runnerCheck, hec, hreq, hmiss]

/-- C8 witness: a zero-exit run that was asked for statistics but wrote
no statistics file is an ERROR. -/
theorem runner_missing_stats_is_error_witness :
    requestsStats ⟨["--stats"]⟩ = true ∧
    ((fun _ : Invocation => RunResult.mk 0 [] none) ⟨["--stats"]⟩).statsFile = none ∧
    ((∃ d, run (fun _ => RunResult.mk 0 [] none) ⟨["--stats"]⟩ = .error d) ∧
      (∀ m, run (fun _ => RunResult.mk 0 [] none) ⟨["--stats"]⟩ ≠ .fail m) ∧
      run (fun _ => RunResult.mk 0 [] none) ⟨["--stats"]⟩ ≠ .ok) :=
  ⟨by decide, by decide,
    runner_missing_stats_is_error (fun _ => RunResult.mk 0 [] none) ⟨["--stats"]⟩
      (by decide) (by decide)⟩

/-- C9: both comparators are reflexive (compareText on any artifact,
compareTrace on any decodable trace), a missing golden file is ERROR,
and a content mismatch is FAIL. -/
theorem comparator_reflexive_missing_golden (x : List String) (t : RawTrace)
    (r : List TraceRecord) (ht : decode t = some r) (p g : List String)
    (hne : p.map normLine ≠ g.map normLine) :
    compareText x (some x) = .ok ∧
    compareTrace t (some t) = .ok ∧
    compareText x none = .error "missing golden file" ∧
    compareTrace t none = .error "missing golden trace file" ∧
    compareText p (some g) = .fail ("golden mismatch at line " ++
      toString (firstDiff (p.map normLine) (g.map normLine))) := by
  refine ⟨?_, ?_, rfl, rfl, ?_⟩
  · simp [compareText]
  · simp [compareTrace, ht]
  · simp [compareText, hne]

/-- C9 witness: reflexivity and the two failure modes at concrete
artifacts. -/
theorem comparator_reflexive_missing_golden_witness :
    decode sampleTraceP = some [⟨"top.clk", 0, 3⟩, ⟨"top.data", 0, 5⟩] ∧
    ["a"].map normLine ≠ ["b"].map normLine ∧
    (compareText ["a "] (some ["a "]) = .ok ∧
      compareTrace sampleTraceP (some sampleTraceP) = .ok ∧
      compareText ["a "] none = .error "missing golden file" ∧
      compareTrace sampleTraceP none = .error "missing golden trace file" ∧
      compareText ["a"] (some ["b"]) = .fail ("golden mismatch at line " ++
        toString (firstDiff (["a"].map normLine) (["b"].map normLine)))) :=
  ⟨by decide, by decide,
    comparator_reflexive_missing_golden ["a "] sampleTraceP
      [⟨"top.clk", 0, 3⟩, ⟨"top.data", 0, 5⟩] (by decide) ["a"] ["b"] (by decide)⟩

/-! Lemmas about cosmetic reformatting of raw trace files. -/

/-- Field normalization keeps the field names. -/
theorem map_fst_sigNorm (f : Nat → Nat) :
    ∀ l : List (String × String), (l.map (sigNorm f)).map Prod.fst = l.map Prod.fst
  | [] => rfl
  | e :: es => by simp [map_fst_sigNorm f es, sigNorm]

/-- Looking up a key after a key-dependent transformation of the values
transforms the looked-up value. -/
theorem lookup_map_keyed {γ : Type} (g : String → String → γ) (k : String)
    (l : List (String × String)) :
    List.lookup k (l.map (fun e => (e.1, g e.1 e.2))) = (List.lookup k l).map (g k) := by
  induction l with
  | nil => rfl
  | cons e es ih =>
    obtain ⟨k1, v1⟩ := e
    by_cases hk : k = k1
    · simp [List.lookup_cons, hk]
    · simp [List.lookup_cons, beq_false_of_ne hk, ih]

/-- Lookup is stable under permutation when the keys are
duplicate-free. -/
theorem lookup_perm_nodup {β : Type} (k : String) :
    ∀ {l₁ l₂ : List (String × β)}, l₁.Perm l₂ → (l₁.map Prod.fst).Nodup →
      List.lookup k l₁ = List.lookup k l₂ := by
  intro l₁ l₂ h
  induction h with
  | nil => intro _; rfl
  | cons x p ih =>
    intro nd
    obtain ⟨kx, vx⟩ := x
    rw [List.map_cons, List.nodup_cons] at nd
    by_cases hk : k = kx
    · simp [List.lookup_cons, hk]
    · simp [List.lookup_cons, beq_false_of_ne hk, ih nd.2]
  | swap x y l =>
    intro nd
    obtain ⟨kx, vx⟩ := x
    obtain ⟨ky, vy⟩ := y
    rw [List.map_cons, List.map_cons, List.nodup_cons] at nd
    have hxy : ky ≠ kx := by
      intro hc
      exact nd.1 (by rw [hc]; exact List.mem_cons_self kx _)
    by_cases h1 : k = ky <;> by_cases h2 : k = kx
    · exact absurd (h1.symm.trans h2) hxy
    · subst h1
      simp [List.lookup_cons, beq_false_of_ne h2]
    · subst h2
      simp [List.lookup_cons, beq_false_of_ne h1]
    · simp [List.lookup_cons, beq_false_of_ne h1, beq_false_of_ne h2]
  | trans p₁ p₂ ih₁ ih₂ =>
    intro nd
    rw [ih₁ nd]
    exact ih₂ ((p₁.map Prod.fst).nodup_iff.mp nd)

/-- Lookup through normalized fields, with the renumbering applied to
the signal field. -/
theorem lookup_sigNorm (f : Nat → Nat) (k : String) (l : List (String × String)) :
    List.lookup k (l.map (sigNorm f)) =
      (List.lookup k l).map
        (fun v => if k = "signal" then (parseVal v).map f else parseVal v) := by
  have h := lookup_map_keyed
    (fun k v => if k = "signal" then (parseVal v).map f else parseVal v) k l
  simpa [sigNorm] using h

/-- Lookup through plainly normalized fields. -/
theorem lookup_baseNorm (k : String) (l : List (String × String)) :
    List.lookup k (l.map baseNorm) = (List.lookup k l).map parseVal := by
  have h := lookup_map_keyed (fun _ v => parseVal v) k l
  simpa [baseNorm] using h

/-- Two optional binds agree when the bound values agree through a pair
of observation maps and the continuations respect those observations. -/
theorem bind_congr_keyed {α β δ γ : Type} {o₁ : Option α} {o₂ : Option β}
    (u : α → δ) (w : β → δ) (h : o₁.map u = o₂.map w)
    (f : α → Option γ) (g : β → Option γ)
    (hfg : ∀ a b, u a = w b → f a = g b) :
    o₁.bind f = o₂.bind g := by
  cases o₁ with
  | none =>
    cases o₂ with
    | none => rfl
    | some b => simp at h
  | some a =>
    cases o₂ with
    | none => simp at h
    | some b =>
      simp only [Option.map_some'] at h
      exact hfg a b (Option.some.inj h)

/-- Renumbering the ID table with an injective map leaves lookups of
renumbered IDs unchanged. -/
theorem lookup_renumber (f : Nat → Nat) (hf : Function.Injective f) (i : Nat) :
    ∀ table : List (Nat × String),
      List.lookup (f i) (table.map (fun e => (f e.1, e.2))) = List.lookup i table := by
  intro table
  induction table with
  | nil => rfl
  | cons e es ih =>
    obtain ⟨k1, v1⟩ := e
    by_cases hk : i = k1
    · simp [List.lookup_cons, hk]
    · have hfk : f i ≠ f k1 := fun hc => hk (hf hc)
      simp [List.lookup_cons, beq_false_of_ne hk, beq_false_of_ne hfk, ih]

/-- Decoding a non-signal numeric field is invariant under cosmetic
reformatting. -/
theorem decodeField_equiv (f : Nat → Nat) (r1 r2 : RawRecord) (h : RecEquiv f r1 r2)
    (k : String) (hk : k ≠ "signal") :
    decodeField k r2 = decodeField k r1 := by
  obtain ⟨nd1, _, hperm⟩ := h
  have hl := lookup_perm_nodup k hperm (by rw [map_fst_sigNorm]; exact nd1)
  rw [lookup_sigNorm, lookup_baseNorm] at hl
  simp only [if_neg hk] at hl
  unfold decodeField
  exact bind_congr_keyed parseVal parseVal hl.symm parseVal parseVal (fun _ _ hab => hab)

/-- Decoding the signal name is invariant under cosmetic reformatting
with an injective ID renumbering. -/
theorem decodeSignal_equiv (f : Nat → Nat) (hf : Function.Injective f)
    (table : List (Nat × String)) (r1 r2 : RawRecord) (h : RecEquiv f r1 r2) :
    decodeSignal (table.map (fun e => (f e.1, e.2))) r2 = decodeSignal table r1 := by
  obtain ⟨nd1, _, hperm⟩ := h
  have hl := lookup_perm_nodup "signal" hperm (by rw [map_fst_sigNorm]; exact nd1)
  rw [lookup_sigNorm, lookup_baseNorm] at hl
  have hl2 : (List.lookup "signal" r1).map (fun v => (parseVal v).map f) =
      (List.lookup "signal" r2).map parseVal := by
    rw [← hl]
    cases List.lookup "signal" r1 <;> simp
  unfold decodeSignal
  refine bind_congr_keyed parseVal (fun v => (parseVal v).map f) hl2.symm _ _ ?_
  intro a b hab
  have hab2 : parseVal a = (parseVal b).map f := hab
  cases hpb : parseVal b with
  | none =>
    rw [hpb] at hab2
    simp only [Option.map_none'] at hab2
    rw [hab2]
    rfl
  | some i =>
    rw [hpb] at hab2
    simp only [Option.map_some'] at hab2
    rw [hab2]
    show List.lookup (f i) (List.map (fun e => (f e.1, e.2)) table) = List.lookup i table
    exact lookup_renumber f hf i table

/-- Decoding one record is invariant under cosmetic reformatting. -/
theorem decodeRecord_equiv (f : Nat → Nat) (hf : Function.Injective f)
    (table : List (Nat × String)) (r1 r2 : RawRecord) (h : RecEquiv f r1 r2) :
    decodeRecord (table.map (fun e => (f e.1, e.2))) r2 = decodeRecord table r1 := by
  unfold decodeRecord
  rw [decodeSignal_equiv f hf table r1 r2 h,
    decodeField_equiv f r1 r2 h "bucket" (by decide),
    decodeField_equiv f r1 r2 h "activity" (by decide)]

/-- Decoding a record list is invariant under pointwise cosmetic
reformatting. -/
theorem decodeList_equiv (f : Nat → Nat) (hf : Function.Injective f)
    (table : List (Nat × String)) :
    ∀ {rs1 rs2 : List RawRecord}, List.Forall₂ (RecEquiv f) rs1 rs2 →
      decodeList (table.map (fun e => (f e.1, e.2))) rs2 = decodeList table rs1 := by
  intro rs1 rs2 h
  induction h with
  | nil => rfl
  | cons hr ht ih =>
    simp only [decodeList]
    rw [decodeRecord_equiv f hf table _ _ hr, ih]

/-- The decoded record sequence of a trace file is invariant under
cosmetic reformatting. -/
theorem decode_cosmetic (f : Nat → Nat) (hf : Function.Injective f)
    (p q : RawTrace) (h : CosmeticRel f p q) :
    decode q = decode p := by
  obtain ⟨htab, hrecs⟩ := h
  unfold decode
  rw [htab]
  exact decodeList_equiv f hf p.idTable hrecs

/-- C2: compareTrace decodes both files into ordered
(signal, bucket, activity) sequences and succeeds exactly when the
decoded sequences are equal; a cosmetic reformatting (field reordering,
numeric padding, injective internal ID renumbering) decodes identically
and therefore compares as PASS, while a differing decoded sequence is
FAIL reporting the first divergent record. -/
theorem saif_identical_structural (f : Nat → Nat) (hf : Function.Injective f)
    (p q g : RawTrace) (rp rg : List TraceRecord)
    (hp : decode p = some rp) (hg : decode g = some rg) (hq : CosmeticRel f p q) :
    (compareTrace p (some g) = .ok ↔ rp = rg) ∧
    (rp ≠ rg → compareTrace p (some g) = .fail (divergeDiag rp rg)) ∧
    decode q = decode p ∧
    compareTrace p (some q) = .ok := by
  have hdq : decode q = decode p := decode_cosmetic f hf p q hq
  have hfail : rp ≠ rg → compareTrace p (some g) = .fail (divergeDiag rp rg) := by
    intro he
    simp [compareTrace, hp, hg, he]
  refine ⟨⟨fun h => ?_, fun he => by simp [compareTrace, hp, hg, he]⟩, hfail, hdq, ?_⟩
  · by_cases he : rp = rg
    · exact he
    · rw [hfail he] at h
      exact absurd h (by simp)
  · simp [compareTrace, hdq, hp]

/-- C2 witness: a raw trace and its cosmetic reformatting (renumbered
IDs, reordered fields, padded numerals) compare as PASS, while a
structurally differing trace compares as FAIL at the first divergent
record. -/
theorem saif_identical_structural_witness :
    Function.Injective (fun n : Nat => n + 5) ∧
    decode sampleTraceP = some [⟨"top.clk", 0, 3⟩, ⟨"top.data", 0, 5⟩] ∧
    decode sampleTraceG = some [⟨"top.clk", 0, 3⟩, ⟨"top.data", 0, 9⟩] ∧
    CosmeticRel (fun n : Nat => n + 5) sampleTraceP sampleTraceQ ∧
    compareTrace sampleTraceP (some sampleTraceQ) = .ok ∧
    compareTrace sampleTraceP (some sampleTraceG) =
      .fail (divergeDiag [⟨"top.clk", 0, 3⟩, ⟨"top.data", 0, 5⟩]
        [⟨"top.clk", 0, 3⟩, ⟨"top.data", 0, 9⟩]) :=
  have hinj : Function.Injective (fun n : Nat => n + 5) :=
    fun a b h => Nat.add_right_cancel h
  have hcos : CosmeticRel (fun n : Nat => n + 5) sampleTraceP sampleTraceQ :=
    ⟨by decide, List.Forall₂.cons ⟨by decide, by decide, by decide⟩
      (List.Forall₂.cons ⟨by decide, by decide, by decide⟩ List.Forall₂.nil)⟩
  have hmain := saif_identical_structural (fun n : Nat => n + 5) hinj
    sampleTraceP sampleTraceQ sampleTraceG
    [⟨"top.clk", 0, 3⟩, ⟨"top.data", 0, 5⟩] [⟨"top.clk", 0, 3⟩, ⟨"top.data", 0, 9⟩]
    (by decide) (by decide) hcos
  ⟨hinj, by decide, by decide, hcos, hmain.2.2.2, hmain.2.1 (by decide)⟩

/-- C10: the lint invocation carries the golden reference directly
(the expect_filename parameter of the embedded script), so the
golden-text comparison happens as part of the invocation step itself:
when the toolchain output differs from the golden file the TestCase
fails at the lint step, the verdict is already terminal before any of
the subsequently declared fact-extraction assertions, and the whole
embedded script resolves to FAIL with later steps leaving the verdict
unchanged. -/
theorem lint_expect_filename_inline (out g stats : List String)
    (hne : out.map normLine ≠ g.map normLine) :
    runStep .pending (Step.lint 0 false out (some g)) = .fail ∧
    (∀ rest, runSteps (runStep .pending (Step.lint 0 false out (some g))) rest =
      runStep .pending (Step.lint 0 false out (some g))) ∧
    runSteps .pending (dfgScript 0 out (some g) stats) = .fail := by
  have hstep : runStep .pending (Step.lint 0 false out (some g)) = .fail := by
    simp [runStep, Verdict.terminal, compareText, hne]
  refine ⟨hstep, fun rest => by rw [hstep]; exact runSteps_terminal_fixed rest .fail rfl, ?_⟩
  unfold dfgScript
  rw [runSteps_cons, hstep]
  exact runSteps_terminal_fixed _ .fail rfl

/-- C10 witness: a concrete output differing from the golden text makes
the embedded lint script fail at the lint call. -/
theorem lint_expect_filename_inline_witness :
    (["lint output"].map normLine ≠ ["golden text"].map normLine) ∧
    (runStep .pending (Step.lint 0 false ["lint output"] (some ["golden text"])) = .fail ∧
      (∀ rest, runSteps
          (runStep .pending (Step.lint 0 false ["lint output"] (some ["golden text"]))) rest =
        runStep .pending (Step.lint 0 false ["lint output"] (some ["golden text"]))) ∧
      runSteps .pending
        (dfgScript 0 ["lint output"] (some ["golden text"]) sampleStats) = .fail) :=
  ⟨by decide,
    lint_expect_filename_inline ["lint output"] ["golden text"] sampleStats (by decide)⟩

end VlTest
